import Mathlib

/-!
Verification development for the SILCS FragMap grid pipeline: native-format
parsing, center-to-origin conversion, grid validation, threshold sampling,
spatial region filtering and grid statistics.

Scalar values carried by the grids are embedded as rationals; the spatial
filter and the statistics module, whose code calls Math.sqrt, are embedded
over the reals.  JavaScript "x || default" field access on possibly missing
numeric fields is modelled by jsOrInt / jsOrQ below, which treat both a
missing value and a zero value as falsy, exactly as JavaScript does.

Input files are modelled at line level: a line is either a comment, a blank
line, a header-shaped line (a word key followed by whitespace separated
numeric tokens, the shape matched by the header regex of the sources), or a
line whose trimmed text is a single numeric token (the layout of the SILCS
data section, one value per line, as the DX converter script documents).
-/

/-- JavaScript-style default for an optional integer field: a missing value
or a zero value is falsy and selects the default, mirroring the source
expression of the form field or-else default. -/
def jsOrInt (o : Option Int) (d : Int) : Int :=
  match o with
  | some v => if v = 0 then d else v
  | none => d

/-- JavaScript-style default for an optional rational field; see jsOrInt. -/
def jsOrQ (o : Option ℚ) (d : ℚ) : ℚ :=
  match o with
  | some v => if v = 0 then d else v
  | none => d

/-- One line of a native-format FragMap file, classified lexically. -/
inductive MapLine where
  | comment
  | blank
  | keyLine (k : String) (vals : List ℚ)
  | numLine (v : ℚ)
deriving Repr, DecidableEq

/-- Header information accumulated by parseMapFile of the DX converter
script: dimensions from NELEMENTS, spacing from SPACING, and the CENTER
coordinates stored as center fields (converted to a corner origin later,
in convertToDx). -/
structure MapInfo where
  nx : Option Int := none
  ny : Option Int := none
  nz : Option Int := none
  grid_spacing : Option ℚ := none
  center_x : Option ℚ := none
  center_y : Option ℚ := none
  center_z : Option ℚ := none
deriving Repr, DecidableEq

/-- Parser state of parseMapFile: header info, data read so far, whether we
are still in the header section, and the expected data count derived from
NELEMENTS. -/
structure MapParseState where
  info : MapInfo
  data : List ℚ
  headerSection : Bool
  expected : Option Int
deriving Repr, DecidableEq

/-- Header handling of parseMapFile: NELEMENTS sets the dimensions (integer
tokens, parseInt modelled by the floor on the already lexed rationals) and
the expected data count; CENTER sets the three center coordinates; SPACING
sets the grid spacing.  Other keys are metadata and do not affect the grid. -/
def mapHeaderStep (st : MapParseState) (k : String) (vals : List ℚ) : MapParseState :=
  if k = "NELEMENTS" then
    match vals with
    | [a, b, c] =>
      let na := Rat.floor a
      let nb := Rat.floor b
      let nc := Rat.floor c
      { st with
          info := { st.info with nx := some na, ny := some nb, nz := some nc },
          expected := some (na * nb * nc) }
    | _ => st
  else if k = "CENTER" then
    match vals with
    | [x, y, z] =>
      { st with info := { st.info with center_x := some x, center_y := some y, center_z := some z } }
    | _ => st
  else if k = "SPACING" then
    match vals with
    | [s] => { st with info := { st.info with grid_spacing := some s } }
    | _ => st
  else st

/-- Main loop of parseMapFile: header lines are processed until the first
numeric line; from then on each single-value numeric line is appended to the
data, but only when NELEMENTS fixed an expected count, and reading stops as
soon as that count is reached (the break in the source). -/
def parseMapFileAux : MapParseState → List MapLine → MapParseState
  | st, [] => st
  | st, MapLine.comment :: rest => parseMapFileAux st rest
  | st, MapLine.blank :: rest => parseMapFileAux st rest
  | st, MapLine.keyLine k vals :: rest =>
    if st.headerSection then parseMapFileAux (mapHeaderStep st k vals) rest
    else parseMapFileAux st rest
  | st, MapLine.numLine v :: rest =>
    let st1 := { st with headerSection := false }
    match st1.expected with
    | none => parseMapFileAux st1 rest
    | some e =>
      let st2 := { st1 with data := st1.data ++ [v] }
      if e ≤ (st2.data.length : Int) then st2 else parseMapFileAux st2 rest

/-- parseMapFile of the DX converter script, over classified lines. -/
def parseMapFile (lines : List MapLine) : MapParseState :=
  parseMapFileAux ⟨{}, [], true, none⟩ lines

/-- Output grid of convertToDx: dimensions, corner origin, spacing, data. -/
structure DxGrid where
  nx : Int
  ny : Int
  nz : Int
  origin_x : ℚ
  origin_y : ℚ
  origin_z : ℚ
  spacing : ℚ
  data : List ℚ
deriving Repr, DecidableEq

/-- convertToDx of the DX converter script: checks that the data count
matches the dimensions (throwing otherwise) and derives the corner origin
from the center with the convention origin = center - dimensions * spacing / 2
on each axis.  Dimension defaults 84, 64, 58 and spacing default 0.8 are the
fallbacks of the source. -/
def convertToDx (st : MapParseState) : Except String DxGrid :=
  let nx := jsOrInt st.info.nx 84
  let ny := jsOrInt st.info.ny 64
  let nz := jsOrInt st.info.nz 58
  if (st.data.length : Int) ≠ nx * ny * nz then
    Except.error "data count mismatch"
  else
    let spacing := jsOrQ st.info.grid_spacing (4/5)
    let cx := st.info.center_x.getD 0
    let cy := st.info.center_y.getD 0
    let cz := st.info.center_z.getD 0
    Except.ok
      ⟨nx, ny, nz,
        cx - ((nx : ℚ) * spacing) / 2,
        cy - ((ny : ℚ) * spacing) / 2,
        cz - ((nz : ℚ) * spacing) / 2,
        spacing, st.data⟩

/-- Grid info accumulated by parseFragMapFile of fragMapParser.js.  Note
that this parser stores the CENTER coordinates directly into the origin
fields, with no center-to-origin conversion. -/
structure GridInfo where
  nx : Option Int := none
  ny : Option Int := none
  nz : Option Int := none
  grid_spacing : Option ℚ := none
  origin_x : Option ℚ := none
  origin_y : Option ℚ := none
  origin_z : Option ℚ := none
deriving Repr, DecidableEq

/-- Parser state of parseFragMapFile. -/
structure FragMapState where
  gridInfo : GridInfo
  gridData : List ℚ
  headerSection : Bool
deriving Repr, DecidableEq

/-- Header handling of parseFragMapFile: NELEMENTS sets the dimensions,
CENTER is stored directly as the origin fields, SPACING sets the spacing. -/
def fragMapHeaderStep (info : GridInfo) (k : String) (vals : List ℚ) : GridInfo :=
  if k = "NELEMENTS" then
    match vals with
    | [a, b, c] => { info with nx := some (Rat.floor a), ny := some (Rat.floor b), nz := some (Rat.floor c) }
    | _ => info
  else if k = "CENTER" then
    match vals with
    | [x, y, z] => { info with origin_x := some x, origin_y := some y, origin_z := some z }
    | _ => info
  else if k = "SPACING" then
    match vals with
    | [s] => { info with grid_spacing := some s }
    | _ => info
  else info

/-- Main loop of parseFragMapFile: header lines until the first numeric
line; afterwards every numeric token of every line is appended to the data
(this parser reads the whole data section, the length is fixed up later). -/
def parseFragMapFileAux : FragMapState → List MapLine → FragMapState
  | st, [] => st
  | st, MapLine.comment :: rest => parseFragMapFileAux st rest
  | st, MapLine.blank :: rest => parseFragMapFileAux st rest
  | st, MapLine.keyLine k vals :: rest =>
    if st.headerSection then
      parseFragMapFileAux { st with gridInfo := fragMapHeaderStep st.gridInfo k vals } rest
    else
      parseFragMapFileAux { st with gridData := st.gridData ++ vals } rest
  | st, MapLine.numLine v :: rest =>
    parseFragMapFileAux { st with headerSection := false, gridData := st.gridData ++ [v] } rest

/-- Expected number of grid points of parseFragMapFile: the product of the
dimensions with JavaScript default 40 per missing axis. -/
def fragMapExpectedPoints (info : GridInfo) : Nat :=
  (jsOrInt info.nx 40 * jsOrInt info.ny 40 * jsOrInt info.nz 40).toNat

/-- Data length fix-up of parseFragMapFile: excess data is truncated to the
expected count, missing data is zero padded to it; a matching length is
left untouched. -/
def adjustGridData (expected : Nat) (raw : List ℚ) : List ℚ :=
  if expected < raw.length then raw.take expected
  else if raw.length < expected then raw ++ List.replicate (expected - raw.length) 0
  else raw

/-- parseFragMapFile of fragMapParser.js, over classified lines, including
the final pad-or-truncate fix-up of the data length. -/
def parseFragMapFile (lines : List MapLine) : FragMapState :=
  let st := parseFragMapFileAux ⟨{}, [], true⟩ lines
  { st with gridData := adjustGridData (fragMapExpectedPoints st.gridInfo) st.gridData }

/-- Header of the Mol* volume conversion path (parseSilcsMapFile): the
dimensions, the CENTER coordinates kept as center fields, and the spacing. -/
structure SilcsHeader where
  nx : Int
  ny : Int
  nz : Int
  centerX : ℚ
  centerY : ℚ
  centerZ : ℚ
  spacing : Option ℚ := none
deriving Repr, DecidableEq

/-- calculateGridOrigin of the Mol* volume converter: the corner origin is
derived from the center with the convention
origin = center - (dimensions - 1) * spacing / 2 on each axis, with spacing
default 1.0; returns the origin triple and the spacing actually used. -/
def calculateGridOrigin (h : SilcsHeader) : (ℚ × ℚ × ℚ) × ℚ :=
  let s := jsOrQ h.spacing 1
  ((h.centerX - (((h.nx : ℚ) - 1) * s) / 2,
    h.centerY - (((h.ny : ℚ) - 1) * s) / 2,
    h.centerZ - (((h.nz : ℚ) - 1) * s) / 2), s)

/-- A sampled grid point: world coordinates and the originating scalar
value (the intensity field of the source spheres; the constant rendering
attributes radius, color and alpha are omitted). -/
structure SamplePoint where
  x : ℚ
  y : ℚ
  z : ℚ
  value : ℚ
deriving Repr, DecidableEq

/-- World coordinate of a grid index: index times spacing plus origin on
each axis, the formula of the 3Dmol sphere generator. -/
def toWorld (origin : ℚ × ℚ × ℚ) (spacing : ℚ) (i j k : Nat) : ℚ × ℚ × ℚ :=
  ((i : ℚ) * spacing + origin.1, (j : ℚ) * spacing + origin.2.1, (k : ℚ) * spacing + origin.2.2)

/-- Threshold test of the 3Dmol sphere generator: a value passes with
value at most the threshold in lower (favorable) mode and with value at
least the threshold in higher (exclusion) mode. -/
def passesThreshold (lower : Bool) (threshold v : ℚ) : Prop :=
  match lower with
  | true => v ≤ threshold
  | false => threshold ≤ v

instance (lower : Bool) (t v : ℚ) : Decidable (passesThreshold lower t v) :=
  match lower with
  | true => inferInstanceAs (Decidable (v ≤ t))
  | false => inferInstanceAs (Decidable (t ≤ v))

/-- Candidate pass of the 3Dmol sphere generator: every flat grid index is
visited; a passing index is decoded as x-fastest, z-slowest and mapped to
world coordinates.  The spatial restriction branches of the source
(selectedProteinPart bounds and filterCenter) are absent here, modelling
the configuration in which neither is set, the configuration all claims
are about. -/
def gridCandidates (gridData : List ℚ) (nx ny : Nat) (origin : ℚ × ℚ × ℚ) (spacing : ℚ)
    (threshold : ℚ) (lower : Bool) : List SamplePoint :=
  gridData.enum.filterMap fun p =>
    if passesThreshold lower threshold p.2 then
      let ix := p.1 % nx
      let iy := (p.1 / nx) % ny
      let iz := p.1 / (nx * ny)
      let w := toWorld origin spacing ix iy iz
      some ⟨w.1, w.2.1, w.2.2, p.2⟩
    else none

/-- Sphere comparison of the 3Dmol generator: ascending by value in lower
(favorable) mode, descending by value in higher (exclusion) mode. -/
def sphereLe (lower : Bool) (a b : SamplePoint) : Bool :=
  match lower with
  | true => decide (a.value ≤ b.value)
  | false => decide (b.value ≤ a.value)

/-- Sphere ordering as a decidable relation, for the stable sort.  The
source sorts with a JavaScript stable comparator sort; a stable sort with
respect to a total preorder is unique, so the stable insertion sort below
is extensionally the sort of the source. -/
def sphereRel (lower : Bool) (a b : SamplePoint) : Prop :=
  sphereLe lower a b = true

/-- Configuration of the 3Dmol sphere generator, with the source defaults. -/
structure SphereConfig where
  isoValue : ℚ := 1
  isoValueRange : ℚ := 1/10
  maxSpheres : Nat := 1500
  thresholdMode : Option Bool := none
deriving Repr, DecidableEq

/-- Direction of the threshold test: an explicit thresholdMode wins
(true is lower mode), otherwise a negative isovalue selects lower mode. -/
def configLower (cfg : SphereConfig) : Bool :=
  cfg.thresholdMode.getD (decide (cfg.isoValue < 0))

/-- Effective threshold: the isovalue made stricter by the range, away from
zero in the direction of the mode. -/
def configThreshold (cfg : SphereConfig) : ℚ :=
  if configLower cfg then cfg.isoValue - cfg.isoValueRange else cfg.isoValue + cfg.isoValueRange

instance (lower : Bool) : DecidableRel (sphereRel lower) :=
  fun a b => instDecidableEqBool (sphereLe lower a b) true

/-- generateSpheresFromGrid of the 3Dmol loader: collect the candidates,
sort them by value (ascending in lower mode, descending in higher mode,
stable), and cut at maxSpheres when the sorted list is longer. -/
def generateSpheres3Dmol (gridData : List ℚ) (nx ny : Nat) (origin : ℚ × ℚ × ℚ) (spacing : ℚ)
    (cfg : SphereConfig) : List SamplePoint :=
  let lower := configLower cfg
  let sorted := (gridCandidates gridData nx ny origin spacing (configThreshold cfg) lower).insertionSort
    (sphereRel lower)
  if cfg.maxSpheres < sorted.length then sorted.take cfg.maxSpheres else sorted

/-- A prefix cut that is conditional on the length, as in the source, equals
an unconditional prefix cut. -/
theorem ite_take_eq {α : Type} (n : Nat) (l : List α) :
    (if n < l.length then l.take n else l) = l.take n := by
  by_cases h : n < l.length
  · rw [if_pos h]
  · rw [if_neg h, List.take_of_length_le (Nat.le_of_not_lt h)]

/-- The 3Dmol sphere generator is the stable sort of the candidate pass
followed by a prefix cut at maxSpheres. -/
theorem generateSpheres3Dmol_eq_take (gridData : List ℚ) (nx ny : Nat) (origin : ℚ × ℚ × ℚ)
    (spacing : ℚ) (cfg : SphereConfig) :
    generateSpheres3Dmol gridData nx ny origin spacing cfg
      = ((gridCandidates gridData nx ny origin spacing (configThreshold cfg)
          (configLower cfg)).insertionSort (sphereRel (configLower cfg))).take cfg.maxSpheres := by
  simp only [generateSpheres3Dmol]
  exact ite_take_eq _ _

/-- The sphere ordering is transitive in both modes. -/
theorem sphereRel_trans (lower : Bool) (a b c : SamplePoint)
    (hab : sphereRel lower a b) (hbc : sphereRel lower b c) : sphereRel lower a c := by
  cases lower
  · simp only [sphereRel, sphereLe, decide_eq_true_eq] at hab hbc ⊢
    exact le_trans hbc hab
  · simp only [sphereRel, sphereLe, decide_eq_true_eq] at hab hbc ⊢
    exact le_trans hab hbc

/-- The sphere ordering is total in both modes. -/
theorem sphereRel_total (lower : Bool) (a b : SamplePoint) :
    sphereRel lower a b ∨ sphereRel lower b a := by
  cases lower
  · simp only [sphereRel, sphereLe, decide_eq_true_eq]
    exact le_total _ _
  · simp only [sphereRel, sphereLe, decide_eq_true_eq]
    exact le_total _ _

/-- Raising the threshold in lower (favorable) mode only adds candidates. -/
theorem gridCandidates_mono (gd : List ℚ) (nx ny : Nat) (o : ℚ × ℚ × ℚ) (s t1 t2 : ℚ)
    (h : t1 ≤ t2) (p : SamplePoint) (hp : p ∈ gridCandidates gd nx ny o s t1 true) :
    p ∈ gridCandidates gd nx ny o s t2 true := by
  simp only [gridCandidates, List.mem_filterMap] at hp ⊢
  obtain ⟨a, ha, hfa⟩ := hp
  refine ⟨a, ha, ?_⟩
  by_cases hc : passesThreshold true t1 a.2
  · rw [if_pos hc] at hfa
    rw [if_pos (show passesThreshold true t2 a.2 from le_trans hc h)]
    exact hfa
  · rw [if_neg hc] at hfa
    exact absurd hfa (by simp)

/-- Concrete native-format input of the end-to-end scenario: header lines
NELEMENTS 2 2 1, SPACING 1.0, CENTER 0 0 0, then the four data values
1.0, -1.0, -1.0, 1.0 one per line. -/
def c1Lines : List MapLine :=
  [MapLine.keyLine "NELEMENTS" [2, 2, 1],
   MapLine.keyLine "SPACING" [1],
   MapLine.keyLine "CENTER" [0, 0, 0],
   MapLine.numLine 1, MapLine.numLine (-1), MapLine.numLine (-1), MapLine.numLine 1]

/-- Expected parsed grid of the end-to-end scenario, with the corner origin
derived from the center by the convention of convertToDx. -/
def c1Grid : DxGrid := ⟨2, 2, 1, -1, -1, -1/2, 1, [1, -1, -1, 1]⟩

/-- C1: parsing the native-format text with header NELEMENTS 2 2 1,
SPACING 1.0, CENTER 0 0 0 and data 1.0, -1.0, -1.0, 1.0 derives the grid
origin (-1, -1, -0.5) by the center-to-origin convention of the DX
converter, and sampling that grid with effective threshold -0.5 in
favorable direction returns exactly the two points whose scalar value is
-1.0, at the world coordinates of grid indices (1,0,0) and (0,1,0). -/
theorem c1_end_to_end_pipeline :
    convertToDx (parseMapFile c1Lines) = Except.ok c1Grid
    ∧ (c1Grid.origin_x, c1Grid.origin_y, c1Grid.origin_z) = (-1, -1, -1/2)
    ∧ generateSpheres3Dmol c1Grid.data 2 2 (c1Grid.origin_x, c1Grid.origin_y, c1Grid.origin_z)
        c1Grid.spacing ⟨-1/2, 0, 1500, some true⟩
      = [⟨0, -1, -1/2, -1⟩, ⟨-1, 0, -1/2, -1⟩]
    ∧ toWorld (-1, -1, -1/2) 1 1 0 0 = (0, -1, -1/2)
    ∧ toWorld (-1, -1, -1/2) 1 0 1 0 = (-1, 0, -1/2) := by
  have hp : parseMapFile c1Lines
      = ⟨⟨some 2, some 2, some 1, some 1, some 0, some 0, some 0⟩, [1, -1, -1, 1], false, some 4⟩ := by
    decide
  refine ⟨?_, by norm_num [c1Grid], ?_, by norm_num [toWorld], by norm_num [toWorld]⟩
  · rw [hp]
    norm_num [convertToDx, jsOrInt, jsOrQ, c1Grid]
  · show generateSpheres3Dmol [1, -1, -1, 1] 2 2 (-1, -1, -1/2) 1 ⟨-1/2, 0, 1500, some true⟩ = _
    have hc : gridCandidates [(1 : ℚ), -1, -1, 1] 2 2 (-1, -1, -1/2) 1 (-1/2 - 0) true
        = [⟨0, -1, -1/2, -1⟩, ⟨-1, 0, -1/2, -1⟩] := by
      norm_num [gridCandidates, toWorld, passesThreshold, List.enum, List.enumFrom,
        List.filterMap_cons]
    have hs : List.insertionSort (sphereRel true)
          [(⟨0, -1, -1/2, -1⟩ : SamplePoint), ⟨-1, 0, -1/2, -1⟩]
        = [⟨0, -1, -1/2, -1⟩, ⟨-1, 0, -1/2, -1⟩] := by
      norm_num [List.insertionSort, List.orderedInsert, sphereRel, sphereLe]
    rw [generateSpheres3Dmol_eq_take]
    have hl : configLower ⟨-1/2, 0, 1500, some true⟩ = true := rfl
    have ht : configThreshold ⟨-1/2, 0, 1500, some true⟩ = -1/2 - 0 := rfl
    rw [hl, ht, hc, hs]
    simp

/-- C2 (counterexample): on the same native-format input, parseFragMapFile
of fragMapParser.js stores the CENTER coordinates (0,0,0) directly as the
grid origin, which differs from both documented center-to-origin
derivations (the x axis would be -1/2 under the dimensions-minus-one
convention and -1 under the dimensions convention), so the parsed origin of
this path equals the CENTER value itself, refuting the claim as stated. -/
theorem c2_counterexample_center_stored_as_origin :
    (parseFragMapFile c1Lines).gridInfo.origin_x = some 0
    ∧ (parseFragMapFile c1Lines).gridInfo.origin_y = some 0
    ∧ (parseFragMapFile c1Lines).gridInfo.origin_z = some 0
    ∧ ((0 : ℚ) ≠ 0 - ((2 - 1) * 1) / 2)
    ∧ ((0 : ℚ) ≠ 0 - (2 * 1) / 2)
    ∧ (calculateGridOrigin ⟨2, 2, 1, 0, 0, 0, some 1⟩).1 = (-1/2, -1/2, 0)
    ∧ (parseFragMapFile c1Lines).gridInfo.origin_x ≠ some (-1/2) := by
  have hp : (parseFragMapFile c1Lines).gridInfo
      = ⟨some 2, some 2, some 1, some 1, some 0, some 0, some 0⟩ := by decide
  rw [hp]
  refine ⟨rfl, rfl, rfl, by norm_num, by norm_num, ?_, ?_⟩
  · norm_num [calculateGridOrigin, jsOrQ]
  · simp only [ne_eq, Option.some.injEq]
    norm_num

/-- C2 (amended): only the Mol* volume conversion path applies the
center-to-origin derivation: calculateGridOrigin maps a parsed CENTER to
origin = center - (dimensions - 1) * spacing / 2 on each axis, which
differs from the CENTER value whenever the axis has more than one point and
a nonzero spacing; parseFragMapFile of fragMapParser.js instead stores the
CENTER coordinates directly as the origin, with no conversion. -/
theorem c2_amended_origin_convention :
    (∀ h : SilcsHeader,
        (calculateGridOrigin h).1
          = (h.centerX - (((h.nx : ℚ) - 1) * jsOrQ h.spacing 1) / 2,
             h.centerY - (((h.ny : ℚ) - 1) * jsOrQ h.spacing 1) / 2,
             h.centerZ - (((h.nz : ℚ) - 1) * jsOrQ h.spacing 1) / 2))
    ∧ (∀ h : SilcsHeader, h.nx ≠ 1 → jsOrQ h.spacing 1 ≠ 0 →
        (calculateGridOrigin h).1.1 ≠ h.centerX)
    ∧ (∀ cx cy cz : ℚ,
        (parseFragMapFile
            [MapLine.keyLine "NELEMENTS" [2, 2, 1], MapLine.keyLine "SPACING" [1],
             MapLine.keyLine "CENTER" [cx, cy, cz],
             MapLine.numLine 1, MapLine.numLine (-1), MapLine.numLine (-1),
             MapLine.numLine 1]).gridInfo.origin_x = some cx
        ∧ (parseFragMapFile
            [MapLine.keyLine "NELEMENTS" [2, 2, 1], MapLine.keyLine "SPACING" [1],
             MapLine.keyLine "CENTER" [cx, cy, cz],
             MapLine.numLine 1, MapLine.numLine (-1), MapLine.numLine (-1),
             MapLine.numLine 1]).gridInfo.origin_y = some cy
        ∧ (parseFragMapFile
            [MapLine.keyLine "NELEMENTS" [2, 2, 1], MapLine.keyLine "SPACING" [1],
             MapLine.keyLine "CENTER" [cx, cy, cz],
             MapLine.numLine 1, MapLine.numLine (-1), MapLine.numLine (-1),
             MapLine.numLine 1]).gridInfo.origin_z = some cz) := by
  refine ⟨fun h => rfl, fun h h1 h2 hEq => ?_, fun cx cy cz => ⟨rfl, rfl, rfl⟩⟩
  have h3 : h.centerX - (((h.nx : ℚ) - 1) * jsOrQ h.spacing 1) / 2 = h.centerX := by
    simpa [calculateGridOrigin] using hEq
  have hz : (((h.nx : ℚ) - 1) * jsOrQ h.spacing 1) / 2 = 0 := sub_eq_self.mp h3
  have h4 : ((h.nx : ℚ) - 1) * jsOrQ h.spacing 1 = 0 := by
    field_simp at hz
    exact hz
  rcases mul_eq_zero.mp h4 with h5 | h5
  · have h6 : (h.nx : ℚ) = 1 := by linarith [sub_eq_zero.mp h5]
    exact h1 (by exact_mod_cast h6)
  · exact h2 h5

/-- Witness for the amended C2 at a concrete header. -/
theorem c2_amended_origin_convention_witness :
    ((3 : Int) ≠ 1) ∧ (jsOrQ (some 2) 1 ≠ (0 : ℚ))
    ∧ (calculateGridOrigin ⟨3, 2, 1, 10, 20, 30, some 2⟩).1.1 ≠ (10 : ℚ) :=
  ⟨by decide, by decide,
    c2_amended_origin_convention.2.1 ⟨3, 2, 1, 10, 20, 30, some 2⟩ (by decide) (by decide)⟩

/-- C3: after the validation fix-up the values array of a parsed grid has
length exactly the expected point count: the fix-up is unconditionally a
prefix cut to the expected length followed by zero padding up to it (so an
oversized raw array is truncated and an undersized one is zero padded), the
fixed-up length always equals the expected count, the parser output always
satisfies the invariant, and for a parsed grid with positive dimensions the
invariant reads values.length = nx * ny * nz. -/
theorem c3_grid_length_invariant :
    (∀ (expected : Nat) (raw : List ℚ),
        adjustGridData expected raw = raw.take expected ++ List.replicate (expected - raw.length) 0
        ∧ (adjustGridData expected raw).length = expected)
    ∧ (∀ lines : List MapLine,
        (parseFragMapFile lines).gridData.length
          = fragMapExpectedPoints (parseFragMapFile lines).gridInfo)
    ∧ (∀ (lines : List MapLine) (a b c : Int),
        (parseFragMapFile lines).gridInfo.nx = some a → 0 < a →
        (parseFragMapFile lines).gridInfo.ny = some b → 0 < b →
        (parseFragMapFile lines).gridInfo.nz = some c → 0 < c →
        ((parseFragMapFile lines).gridData.length : Int) = a * b * c) := by
  have hadj : ∀ (expected : Nat) (raw : List ℚ),
      adjustGridData expected raw
        = raw.take expected ++ List.replicate (expected - raw.length) 0 := by
    intro expected raw
    by_cases h1 : expected < raw.length
    · have h0 : expected - raw.length = 0 := by omega
      simp [adjustGridData, h1, h0]
    · by_cases h2 : raw.length < expected
      · simp [adjustGridData, h1, h2, List.take_of_length_le (by omega : raw.length ≤ expected)]
      · have hq : expected - raw.length = 0 := by omega
        simp [adjustGridData, h1, h2, hq,
          List.take_of_length_le (by omega : raw.length ≤ expected)]
  have hlen : ∀ (expected : Nat) (raw : List ℚ),
      (adjustGridData expected raw).length = expected := by
    intro expected raw
    rw [hadj]
    simp only [List.length_append, List.length_take, List.length_replicate]
    omega
  have hinv : ∀ lines : List MapLine,
      (parseFragMapFile lines).gridData.length
        = fragMapExpectedPoints (parseFragMapFile lines).gridInfo := by
    intro lines
    simp only [parseFragMapFile]
    exact hlen _ _
  refine ⟨fun e raw => ⟨hadj e raw, hlen e raw⟩, hinv, ?_⟩
  intro lines a b c ha hpa hb hpb hc hpc
  rw [hinv lines]
  unfold fragMapExpectedPoints
  rw [ha, hb, hc]
  have hja : jsOrInt (some a) 40 = a := by simp [jsOrInt]; omega
  have hjb : jsOrInt (some b) 40 = b := by simp [jsOrInt]; omega
  have hjc : jsOrInt (some c) 40 = c := by simp [jsOrInt]; omega
  rw [hja, hjb, hjc]
  have hpos : 0 < a * b * c := mul_pos (mul_pos hpa hpb) hpc
  exact Int.toNat_of_nonneg (le_of_lt hpos)

/-- Witness for C3 at the concrete end-to-end input, whose parsed grid has
dimensions 2 x 2 x 1 and exactly four values. -/
theorem c3_grid_length_invariant_witness :
    (parseFragMapFile c1Lines).gridInfo.nx = some 2 ∧ (0 : Int) < 2
    ∧ (parseFragMapFile c1Lines).gridInfo.ny = some 2
    ∧ (parseFragMapFile c1Lines).gridInfo.nz = some 1 ∧ (0 : Int) < 1
    ∧ ((parseFragMapFile c1Lines).gridData.length : Int) = 2 * 2 * 1 :=
  ⟨by decide, by decide, by decide, by decide, by decide,
    c3_grid_length_invariant.2.2 c1Lines 2 2 1 (by decide) (by decide) (by decide) (by decide)
      (by decide) (by decide)⟩

/-- A JavaScript number as seen by the validator: either a finite rational
or one of the non-finite values NaN and the two infinities. -/
inductive JsFloat where
  | finite (q : ℚ)
  | nan
  | inf
  | negInf
deriving Repr, DecidableEq

/-- The isFinite test of JavaScript. -/
def JsFloat.isFinite : JsFloat → Bool
  | JsFloat.finite _ => true
  | _ => false

/-- Grid record as checked by validateFragMapData: dimensions, the optional
spacing, and the value array. -/
structure VGrid where
  nx : Int
  ny : Int
  nz : Int
  grid_spacing : Option ℚ := none
  values : List JsFloat
deriving Repr, DecidableEq

/-- validateFragMapData of fragMapParser.js: fails on a non-positive
dimension, on a value-count mismatch with nx * ny * nz, and on a non-finite
value.  The spacing check of the source is only a console warning and does
not affect the result, which is why no spacing condition appears here. -/
def validateFragMapData (g : VGrid) : Bool :=
  decide (0 < g.nx) && decide (0 < g.ny) && decide (0 < g.nz)
    && decide ((g.values.length : Int) = g.nx * g.ny * g.nz)
    && g.values.all JsFloat.isFinite

/-- C4 (counterexample): a grid with spacing -1 and otherwise valid fields
passes validateFragMapData, refuting the claim that validation fails when
the spacing is non-positive; the source only warns about spacing. -/
theorem c4_counterexample_spacing_not_fatal :
    validateFragMapData ⟨1, 1, 1, some (-1), [JsFloat.finite 0]⟩ = true
    ∧ ((-1 : ℚ) ≤ 0) := by
  refine ⟨by decide, by norm_num⟩

/-- C4 (amended): validateFragMapData succeeds exactly when every dimension
is positive, the value count equals nx * ny * nz, and every value is
finite; non-positive spacing is not rejected (it only draws a warning), and
the claim also omitted the value-count condition that the validator does
enforce. -/
theorem c4_amended_validation_iff (g : VGrid) :
    validateFragMapData g = true ↔
      0 < g.nx ∧ 0 < g.ny ∧ 0 < g.nz ∧ (g.values.length : Int) = g.nx * g.ny * g.nz
        ∧ ∀ v ∈ g.values, v.isFinite = true := by
  simp [validateFragMapData, List.all_eq_true, and_assoc]

/-- C5: the 3Dmol sampler is deterministic (it is a pure function of the
grid and the configuration) and its retained subset is exactly the stable
sort of the candidate list by value (ascending in favorable mode,
descending in exclusion mode) cut at maxPoints, never a random selection;
in particular the output is sorted for the mode ordering. -/
theorem c5_deterministic_truncation (gd : List ℚ) (nx ny : Nat) (o : ℚ × ℚ × ℚ) (s : ℚ)
    (cfg : SphereConfig) :
    generateSpheres3Dmol gd nx ny o s cfg = generateSpheres3Dmol gd nx ny o s cfg
    ∧ generateSpheres3Dmol gd nx ny o s cfg
        = ((gridCandidates gd nx ny o s (configThreshold cfg) (configLower cfg)).insertionSort
            (sphereRel (configLower cfg))).take cfg.maxSpheres
    ∧ List.Pairwise (sphereRel (configLower cfg)) (generateSpheres3Dmol gd nx ny o s cfg) := by
  refine ⟨rfl, generateSpheres3Dmol_eq_take gd nx ny o s cfg, ?_⟩
  rw [generateSpheres3Dmol_eq_take gd nx ny o s cfg]
  have hsorted : List.Sorted (sphereRel (configLower cfg))
      ((gridCandidates gd nx ny o s (configThreshold cfg) (configLower cfg)).insertionSort
        (sphereRel (configLower cfg))) :=
    @List.sorted_insertionSort _ (sphereRel (configLower cfg)) _
      ⟨sphereRel_total (configLower cfg)⟩ ⟨sphereRel_trans (configLower cfg)⟩ _
  exact List.Pairwise.sublist (List.take_sublist _ _) hsorted

/-- C8: favorable-direction threshold monotonicity: with thresholds
t1 < t2 and no truncation in effect (the candidate count at the more
permissive threshold fits within maxPoints), every point sampled at the
stricter threshold t1 is also sampled at t2. -/
theorem c8_threshold_monotonicity (gd : List ℚ) (nx ny : Nat) (o : ℚ × ℚ × ℚ) (s : ℚ)
    (t1 t2 r : ℚ) (maxS : Nat) (h12 : t1 < t2)
    (hfit : (gridCandidates gd nx ny o s (t2 - r) true).length ≤ maxS) :
    ∀ p ∈ generateSpheres3Dmol gd nx ny o s ⟨t1, r, maxS, some true⟩,
      p ∈ generateSpheres3Dmol gd nx ny o s ⟨t2, r, maxS, some true⟩ := by
  intro p hp
  rw [generateSpheres3Dmol_eq_take] at hp ⊢
  have hl1 : configLower ⟨t1, r, maxS, some true⟩ = true := rfl
  have hl2 : configLower ⟨t2, r, maxS, some true⟩ = true := rfl
  have ht1 : configThreshold ⟨t1, r, maxS, some true⟩ = t1 - r := rfl
  have ht2 : configThreshold ⟨t2, r, maxS, some true⟩ = t2 - r := rfl
  rw [hl1, ht1] at hp
  rw [hl2, ht2]
  have hp1 : p ∈ gridCandidates gd nx ny o s (t1 - r) true :=
    (List.mem_insertionSort _).1 (List.mem_of_mem_take hp)
  have hp2 : p ∈ gridCandidates gd nx ny o s (t2 - r) true :=
    gridCandidates_mono gd nx ny o s (t1 - r) (t2 - r) (by linarith) p hp1
  have hall : ((gridCandidates gd nx ny o s (t2 - r) true).insertionSort
      (sphereRel true)).take maxS
      = (gridCandidates gd nx ny o s (t2 - r) true).insertionSort (sphereRel true) :=
    List.take_of_length_le (by rw [List.length_insertionSort]; exact hfit)
  rw [hall]
  exact (List.mem_insertionSort _).2 hp2

/-- Witness for C8 on the end-to-end grid, sampled at thresholds -0.5 and
0 in favorable mode. -/
theorem c8_threshold_monotonicity_witness :
    ((-1/2 : ℚ) < 0)
    ∧ (gridCandidates [1, -1, -1, 1] 2 2 (-1, -1, -1/2) 1 (0 - 0) true).length ≤ 1500
    ∧ (⟨0, -1, -1/2, -1⟩ : SamplePoint)
        ∈ generateSpheres3Dmol [1, -1, -1, 1] 2 2 (-1, -1, -1/2) 1 ⟨-1/2, 0, 1500, some true⟩
    ∧ (⟨0, -1, -1/2, -1⟩ : SamplePoint)
        ∈ generateSpheres3Dmol [1, -1, -1, 1] 2 2 (-1, -1, -1/2) 1 ⟨0, 0, 1500, some true⟩ := by
  have h1 : ((-1/2 : ℚ) < 0) := by norm_num
  have hc1 : gridCandidates [(1 : ℚ), -1, -1, 1] 2 2 (-1, -1, -1/2) 1 (-1/2 - 0) true
      = [⟨0, -1, -1/2, -1⟩, ⟨-1, 0, -1/2, -1⟩] := by
    norm_num [gridCandidates, toWorld, passesThreshold, List.enum, List.enumFrom,
      List.filterMap_cons]
  have hc2 : gridCandidates [(1 : ℚ), -1, -1, 1] 2 2 (-1, -1, -1/2) 1 (0 - 0) true
      = [⟨0, -1, -1/2, -1⟩, ⟨-1, 0, -1/2, -1⟩] := by
    norm_num [gridCandidates, toWorld, passesThreshold, List.enum, List.enumFrom,
      List.filterMap_cons]
  have h2 : (gridCandidates [(1 : ℚ), -1, -1, 1] 2 2 (-1, -1, -1/2) 1 (0 - 0) true).length
      ≤ 1500 := by rw [hc2]; simp
  have hs1 : List.insertionSort (sphereRel true)
        [(⟨0, -1, -1/2, -1⟩ : SamplePoint), ⟨-1, 0, -1/2, -1⟩]
      = [⟨0, -1, -1/2, -1⟩, ⟨-1, 0, -1/2, -1⟩] := by
    norm_num [List.insertionSort, List.orderedInsert, sphereRel, sphereLe]
  have hmem : (⟨0, -1, -1/2, -1⟩ : SamplePoint)
      ∈ generateSpheres3Dmol [1, -1, -1, 1] 2 2 (-1, -1, -1/2) 1 ⟨-1/2, 0, 1500, some true⟩ := by
    rw [generateSpheres3Dmol_eq_take]
    have hl : configLower ⟨-1/2, 0, 1500, some true⟩ = true := rfl
    have ht : configThreshold ⟨-1/2, 0, 1500, some true⟩ = -1/2 - 0 := rfl
    rw [hl, ht, hc1, hs1]
    simp
  exact ⟨h1, h2, hmem,
    c8_threshold_monotonicity [1, -1, -1, 1] 2 2 (-1, -1, -1/2) 1 (-1/2) 0 0 1500 h1 h2 _ hmem⟩

/-- C9: the coordinate mapping round trip: for indices inside the grid and
a positive spacing, the world coordinate formula followed by the inverse
(world - origin) / spacing recovers the indices exactly on each axis. -/
theorem c9_coordinate_round_trip (origin : ℚ × ℚ × ℚ) (spacing : ℚ) (nx ny nz i j k : Nat)
    (hs : 0 < spacing) (hi : i < nx) (hj : j < ny) (hk : k < nz) :
    ((toWorld origin spacing i j k).1 - origin.1) / spacing = i
    ∧ ((toWorld origin spacing i j k).2.1 - origin.2.1) / spacing = j
    ∧ ((toWorld origin spacing i j k).2.2 - origin.2.2) / spacing = k := by
  have h : spacing ≠ 0 := ne_of_gt hs
  refine ⟨?_, ?_, ?_⟩ <;>
    simp [toWorld, add_sub_cancel_right, mul_div_cancel_right₀, h]

/-- Witness for C9 at a concrete origin, spacing and index triple. -/
theorem c9_coordinate_round_trip_witness :
    ((0 : ℚ) < 1/2) ∧ (3 < 10) ∧ (4 < 10) ∧ (5 < 10)
    ∧ ((toWorld (1, 2, 3) (1/2) 3 4 5).1 - 1) / (1/2) = (3 : ℚ)
    ∧ ((toWorld (1, 2, 3) (1/2) 3 4 5).2.1 - 2) / (1/2) = (4 : ℚ)
    ∧ ((toWorld (1, 2, 3) (1/2) 3 4 5).2.2 - 3) / (1/2) = (5 : ℚ) := by
  refine ⟨by norm_num, by norm_num, by norm_num, by norm_num, ?_, ?_, ?_⟩
  · exact ((c9_coordinate_round_trip (1, 2, 3) (1/2) 10 10 10 3 4 5 (by norm_num) (by norm_num)
      (by norm_num) (by norm_num)).1).trans (by norm_num)
  · exact ((c9_coordinate_round_trip (1, 2, 3) (1/2) 10 10 10 3 4 5 (by norm_num) (by norm_num)
      (by norm_num) (by norm_num)).2.1).trans (by norm_num)
  · exact ((c9_coordinate_round_trip (1, 2, 3) (1/2) 10 10 10 3 4 5 (by norm_num) (by norm_num)
      (by norm_num) (by norm_num)).2.2).trans (by norm_num)

/-- Euclidean distance of calculateDistance in spatialFilter.js. -/
noncomputable def calculateDistance (p q : ℝ × ℝ × ℝ) : ℝ :=
  Real.sqrt ((p.1 - q.1) * (p.1 - q.1) + (p.2.1 - q.2.1) * (p.2.1 - q.2.1)
    + (p.2.2 - q.2.2) * (p.2.2 - q.2.2))

/-- A sphere record flowing through the spatial filter: position and
energy, plus the optional fields the filter stages attach by object spread
in the source; a field that has not been attached yet is none, matching a
JavaScript undefined property. -/
structure FilteredSphere where
  x : ℝ
  y : ℝ
  z : ℝ
  energy : ℝ
  minDistance : Option ℝ := none
  proximityScore : Option ℝ := none
  energyWeight : Option ℝ := none
  combinedScore : Option ℝ := none

/-- Position of a sphere as a coordinate triple. -/
def FilteredSphere.pos (s : FilteredSphere) : ℝ × ℝ × ℝ := (s.x, s.y, s.z)

open Classical in
/-- Inner loop of filterSpheresByProximity: the running minimum distance
over the anchors, starting from Infinity (modelled by none), with the early
exit of the source: as soon as the running minimum is within maxDistance the
loop breaks, so later (possibly closer) anchors are not visited. -/
noncomputable def earlyMinDistance (maxD : ℝ) (p : ℝ × ℝ × ℝ) :
    List (ℝ × ℝ × ℝ) → Option ℝ → Option ℝ
  | [], cur => cur
  | a :: rest, cur =>
    let d := calculateDistance p a
    let m := match cur with
      | none => d
      | some c => min c d
    if m ≤ maxD then some m else earlyMinDistance maxD p rest (some m)

open Classical in
/-- filterSpheresByProximity of spatialFilter.js: with no residues the
spheres are returned unchanged; otherwise a sphere is kept when its running
minimum distance ends within maxDistance, and the kept sphere is enriched
with that distance and with proximityScore = 1 - distance / maxDistance. -/
noncomputable def filterSpheresByProximity (spheres : List FilteredSphere)
    (residues : List (ℝ × ℝ × ℝ)) (maxDistance : ℝ) : List FilteredSphere :=
  if residues = [] then spheres
  else spheres.filterMap fun s =>
    match earlyMinDistance maxDistance s.pos residues none with
    | none => none
    | some m =>
      if m ≤ maxDistance then
        some { s with minDistance := some m, proximityScore := some (1 - m / maxDistance) }
      else none

/-- calculateEnergyWeight of spatialFilter.js: the energy clamped to the
range -2 to 2 and mapped linearly so that -2 gives 1 and 2 gives 0. -/
noncomputable def calculateEnergyWeight (energy : ℝ) : ℝ :=
  (2 - max (-2) (min 2 energy)) / 4

/-- calculateCombinedScore of spatialFilter.js: 0.6 times the proximity
score (0 when the field is absent) plus 0.4 times the energy weight. -/
noncomputable def calculateCombinedScore (s : FilteredSphere) : ℝ :=
  s.proximityScore.getD 0 * (6/10) + calculateEnergyWeight s.energy * (4/10)

/-- Descending order on the combined score, the comparator of the sort in
weightSpheresByEnergy. -/
def scoreRel (a b : FilteredSphere) : Prop :=
  b.combinedScore.getD 0 ≤ a.combinedScore.getD 0

noncomputable instance : DecidableRel scoreRel :=
  fun _ _ => Classical.propDecidable _

open Classical in
/-- weightSpheresByEnergy of spatialFilter.js: keep the spheres with energy
at most the threshold, attach the energy weight and the combined score, and
sort descending by combined score (a stable comparator sort in the source,
embedded as the stable insertion sort). -/
noncomputable def weightSpheresByEnergy (spheres : List FilteredSphere)
    (energyThreshold : ℝ) : List FilteredSphere :=
  ((spheres.filter fun s => decide (s.energy ≤ energyThreshold)).map fun s =>
      { s with energyWeight := some (calculateEnergyWeight s.energy),
               combinedScore := some (calculateCombinedScore s) }).insertionSort scoreRel

/-- Span of one coordinate over a residue list (maximum minus minimum),
zero for the empty list, as in calculateRegionSize. -/
noncomputable def coordSpan (f : (ℝ × ℝ × ℝ) → ℝ) : List (ℝ × ℝ × ℝ) → ℝ
  | [] => 0
  | a :: rest =>
    rest.foldl (fun m r => max m (f r)) (f a) - rest.foldl (fun m r => min m (f r)) (f a)

/-- calculateRegionSize of spatialFilter.js: the largest coordinate span of
the residue set. -/
noncomputable def calculateRegionSize (residues : List (ℝ × ℝ × ℝ)) : ℝ :=
  max (coordSpan (fun r => r.1) residues)
    (max (coordSpan (fun r => r.2.1) residues) (coordSpan (fun r => r.2.2) residues))

/-- Options of createRegionFilter, with the source defaults. -/
structure RegionFilterOptions where
  maxDistance : ℝ := 5
  energyThreshold : ℝ := 0
  maxSpheres : Nat := 5000
  adaptiveDistance : Bool := true

open Classical in
/-- Effective distance of createRegionFilter: with adaptive distance on and
a nonempty residue list, the base distance is scaled by one plus the region
size over twenty, with no cap (the source comment removes the cap). -/
noncomputable def regionFilterEffectiveDistance (residues : List (ℝ × ℝ × ℝ))
    (opts : RegionFilterOptions) : ℝ :=
  if opts.adaptiveDistance = true ∧ residues ≠ [] then
    opts.maxDistance * (1 + calculateRegionSize residues / 20)
  else opts.maxDistance

/-- The filter function returned by createRegionFilter: proximity filter,
then energy weighting and descending sort, then a prefix cut keeping the
best maxSpheres. -/
noncomputable def regionFilter (residues : List (ℝ × ℝ × ℝ)) (opts : RegionFilterOptions)
    (spheres : List FilteredSphere) : List FilteredSphere :=
  (weightSpheresByEnergy
      (filterSpheresByProximity spheres residues (regionFilterEffectiveDistance residues opts))
      opts.energyThreshold).take opts.maxSpheres

/-- Minimum distance to the anchor set as the specification words it: the
plain minimum over all anchors of the Euclidean distance, none for an empty
anchor set.  This definition follows the specification text and is compared
against the early-exit loop of the source. -/
noncomputable def specMinDistance (p : ℝ × ℝ × ℝ) (residues : List (ℝ × ℝ × ℝ)) : Option ℝ :=
  match residues with
  | [] => none
  | a :: rest =>
    some (rest.foldl (fun m r => min m (calculateDistance p r)) (calculateDistance p a))

/-- Statistics record of calculateGridStatistics. -/
structure GridStats where
  min : ℝ
  max : ℝ
  mean : ℝ
  stdDev : ℝ

/-- Running minimum starting from Infinity, modelled by none: the first
pass of calculateGridStatistics. -/
noncomputable def jsFoldMin (l : List ℝ) : Option ℝ :=
  l.foldl (fun cur v => some (match cur with | none => v | some c => Min.min c v)) none

/-- Running maximum starting from negative Infinity, modelled by none. -/
noncomputable def jsFoldMax (l : List ℝ) : Option ℝ :=
  l.foldl (fun cur v => some (match cur with | none => v | some c => Max.max c v)) none

open Classical in
/-- calculateGridStatistics of fragMapParser.js: the all-zero record for an
empty (or missing) value array; otherwise the minimum, maximum and mean of
the full array in a first pass and the standard deviation, the square root
of the mean squared deviation, in a second pass. -/
noncomputable def calculateGridStatistics (l : List ℝ) : GridStats :=
  if l = [] then ⟨0, 0, 0, 0⟩
  else
    let mean := l.sum / l.length
    ⟨(jsFoldMin l).getD 0, (jsFoldMax l).getD 0, mean,
      Real.sqrt ((l.map fun v => (v - mean) * (v - mean)).sum / l.length)⟩

/-- The running minimum of a nonempty list is the fold of min from the
head (the Infinity start value never survives a nonempty pass). -/
theorem jsFoldMin_cons (x : ℝ) (xs : List ℝ) :
    jsFoldMin (x :: xs) = some (xs.foldl Min.min x) := by
  have h : ∀ (ys : List ℝ) (a : ℝ),
      ys.foldl (fun cur v => some (match cur with | none => v | some c => Min.min c v)) (some a)
        = some (ys.foldl Min.min a) := by
    intro ys
    induction ys with
    | nil => intro a; rfl
    | cons y ys ih => intro a; exact ih (Min.min a y)
  have h0 : jsFoldMin (x :: xs)
      = xs.foldl (fun cur v => some (match cur with | none => v | some c => Min.min c v))
          (some x) := rfl
  rw [h0, h xs x]

/-- The running maximum of a nonempty list is the fold of max from the
head. -/
theorem jsFoldMax_cons (x : ℝ) (xs : List ℝ) :
    jsFoldMax (x :: xs) = some (xs.foldl Max.max x) := by
  have h : ∀ (ys : List ℝ) (a : ℝ),
      ys.foldl (fun cur v => some (match cur with | none => v | some c => Max.max c v)) (some a)
        = some (ys.foldl Max.max a) := by
    intro ys
    induction ys with
    | nil => intro a; rfl
    | cons y ys ih => intro a; exact ih (Max.max a y)
  have h0 : jsFoldMax (x :: xs)
      = xs.foldl (fun cur v => some (match cur with | none => v | some c => Max.max c v))
          (some x) := rfl
  rw [h0, h xs x]

/-- A left fold of min is an element of the start value and the list. -/
theorem foldl_min_mem {α : Type} [LinearOrder α] (xs : List α) :
    ∀ a : α, xs.foldl Min.min a ∈ a :: xs := by
  induction xs with
  | nil => intro a; exact List.mem_singleton.mpr rfl
  | cons y ys ih =>
    intro a
    have h := ih (Min.min a y)
    have hgoal : ys.foldl Min.min (Min.min a y) ∈ a :: y :: ys := by
      rcases List.mem_cons.mp h with h1 | h1
      · rcases min_choice a y with hm | hm
        · rw [h1, hm]; exact List.mem_cons_self _ _
        · rw [h1, hm]; exact List.mem_cons_of_mem _ (List.mem_cons_self _ _)
      · exact List.mem_cons_of_mem _ (List.mem_cons_of_mem _ h1)
    exact hgoal

/-- A left fold of min is a lower bound of the start value and the list. -/
theorem foldl_min_le {α : Type} [LinearOrder α] (xs : List α) :
    ∀ a : α, ∀ x ∈ a :: xs, xs.foldl Min.min a ≤ x := by
  induction xs with
  | nil =>
    intro a x hx
    have hax := List.mem_singleton.mp hx
    rw [hax]
    exact le_refl a
  | cons y ys ih =>
    intro a x hx
    rcases List.mem_cons.mp hx with rfl | hx1
    · exact le_trans (ih (Min.min x y) (Min.min x y) (List.mem_cons_self _ _)) (min_le_left x y)
    rcases List.mem_cons.mp hx1 with rfl | hx2
    · exact le_trans (ih (Min.min a x) (Min.min a x) (List.mem_cons_self _ _)) (min_le_right a x)
    · exact ih (Min.min a y) x (List.mem_cons_of_mem _ hx2)

/-- A left fold of max is an element of the start value and the list. -/
theorem foldl_max_mem {α : Type} [LinearOrder α] (xs : List α) :
    ∀ a : α, xs.foldl Max.max a ∈ a :: xs := by
  induction xs with
  | nil => intro a; exact List.mem_singleton.mpr rfl
  | cons y ys ih =>
    intro a
    have h := ih (Max.max a y)
    have hgoal : ys.foldl Max.max (Max.max a y) ∈ a :: y :: ys := by
      rcases List.mem_cons.mp h with h1 | h1
      · rcases max_choice a y with hm | hm
        · rw [h1, hm]; exact List.mem_cons_self _ _
        · rw [h1, hm]; exact List.mem_cons_of_mem _ (List.mem_cons_self _ _)
      · exact List.mem_cons_of_mem _ (List.mem_cons_of_mem _ h1)
    exact hgoal

/-- A left fold of max is an upper bound of the start value and the list. -/
theorem foldl_le_max {α : Type} [LinearOrder α] (xs : List α) :
    ∀ a : α, ∀ x ∈ a :: xs, x ≤ xs.foldl Max.max a := by
  induction xs with
  | nil =>
    intro a x hx
    have hax := List.mem_singleton.mp hx
    rw [hax]
    exact le_refl a
  | cons y ys ih =>
    intro a x hx
    rcases List.mem_cons.mp hx with rfl | hx1
    · exact le_trans (le_max_left x y) (ih (Max.max x y) (Max.max x y) (List.mem_cons_self _ _))
    rcases List.mem_cons.mp hx1 with rfl | hx2
    · exact le_trans (le_max_right a x) (ih (Max.max a x) (Max.max a x) (List.mem_cons_self _ _))
    · exact ih (Max.max a y) x (List.mem_cons_of_mem _ hx2)

/-- C10: grid statistics on the empty (or missing, modelled as empty)
value array return the all-zero record without error; on every nonempty
array the reported minimum and maximum are attained elements bounding the
whole array, the mean is the sum over the length, and the standard
deviation is the square root of the mean squared deviation, all computed
over the full array. -/
theorem c10_grid_statistics :
    calculateGridStatistics [] = ⟨0, 0, 0, 0⟩
    ∧ ∀ l : List ℝ, l ≠ [] →
        ((calculateGridStatistics l).min ∈ l ∧ ∀ x ∈ l, (calculateGridStatistics l).min ≤ x)
        ∧ ((calculateGridStatistics l).max ∈ l ∧ ∀ x ∈ l, x ≤ (calculateGridStatistics l).max)
        ∧ (calculateGridStatistics l).mean = l.sum / l.length
        ∧ (calculateGridStatistics l).stdDev
            = Real.sqrt ((l.map fun v => (v - l.sum / l.length) * (v - l.sum / l.length)).sum
                / l.length) := by
  refine ⟨by simp [calculateGridStatistics], ?_⟩
  intro l hl
  cases l with
  | nil => exact absurd rfl hl
  | cons x xs =>
    have hmin : (calculateGridStatistics (x :: xs)).min = xs.foldl Min.min x := by
      simp [calculateGridStatistics, jsFoldMin_cons]
    have hmax : (calculateGridStatistics (x :: xs)).max = xs.foldl Max.max x := by
      simp [calculateGridStatistics, jsFoldMax_cons]
    refine ⟨⟨?_, ?_⟩, ⟨?_, ?_⟩, ?_, ?_⟩
    · rw [hmin]; exact foldl_min_mem xs x
    · rw [hmin]; exact foldl_min_le xs x
    · rw [hmax]; exact foldl_max_mem xs x
    · rw [hmax]; exact foldl_le_max xs x
    · simp [calculateGridStatistics]
    · simp [calculateGridStatistics]

/-- Witness for C10 at the concrete value list of the specification
scenario. -/
theorem c10_grid_statistics_witness :
    ([(-2 : ℝ), -1, 0, 1, 2] ≠ [])
    ∧ (((calculateGridStatistics [(-2 : ℝ), -1, 0, 1, 2]).min ∈ [(-2 : ℝ), -1, 0, 1, 2]
        ∧ ∀ x ∈ [(-2 : ℝ), -1, 0, 1, 2], (calculateGridStatistics [(-2 : ℝ), -1, 0, 1, 2]).min ≤ x)
      ∧ ((calculateGridStatistics [(-2 : ℝ), -1, 0, 1, 2]).max ∈ [(-2 : ℝ), -1, 0, 1, 2]
        ∧ ∀ x ∈ [(-2 : ℝ), -1, 0, 1, 2], x ≤ (calculateGridStatistics [(-2 : ℝ), -1, 0, 1, 2]).max)
      ∧ (calculateGridStatistics [(-2 : ℝ), -1, 0, 1, 2]).mean
          = ([(-2 : ℝ), -1, 0, 1, 2].sum / ([(-2 : ℝ), -1, 0, 1, 2] : List ℝ).length)
      ∧ (calculateGridStatistics [(-2 : ℝ), -1, 0, 1, 2]).stdDev
          = Real.sqrt ((([(-2 : ℝ), -1, 0, 1, 2] : List ℝ).map fun v =>
              (v - [(-2 : ℝ), -1, 0, 1, 2].sum / ([(-2 : ℝ), -1, 0, 1, 2] : List ℝ).length)
              * (v - [(-2 : ℝ), -1, 0, 1, 2].sum
                  / ([(-2 : ℝ), -1, 0, 1, 2] : List ℝ).length)).sum
            / ([(-2 : ℝ), -1, 0, 1, 2] : List ℝ).length)) :=
  ⟨by simp, c10_grid_statistics.2 [(-2 : ℝ), -1, 0, 1, 2] (by simp)⟩

/-- The descending score order is transitive. -/
theorem scoreRel_trans (a b c : FilteredSphere) (hab : scoreRel a b) (hbc : scoreRel b c) :
    scoreRel a c :=
  le_trans hbc hab

/-- The descending score order is total. -/
theorem scoreRel_total (a b : FilteredSphere) : scoreRel a b ∨ scoreRel b a :=
  le_total _ _

/-- The energy weighting stage returns a list sorted descending by
combined score. -/
theorem weightSpheres_sorted (spheres : List FilteredSphere) (t : ℝ) :
    List.Sorted scoreRel (weightSpheresByEnergy spheres t) := by
  simp only [weightSpheresByEnergy]
  exact @List.sorted_insertionSort _ scoreRel _ ⟨scoreRel_total⟩ ⟨scoreRel_trans⟩ _

/-- C6: the region filter output is ranked: its length is exactly the
minimum of maxPoints and the candidate count (the number of points that
survive the distance and energy filters), and the first output point has a
combined score at least that of every output point. -/
theorem c6_region_filter_ranking (residues : List (ℝ × ℝ × ℝ)) (opts : RegionFilterOptions)
    (spheres : List FilteredSphere) :
    (regionFilter residues opts spheres).length
        = min opts.maxSpheres
            (weightSpheresByEnergy
              (filterSpheresByProximity spheres residues
                (regionFilterEffectiveDistance residues opts)) opts.energyThreshold).length
    ∧ ∀ q p, (regionFilter residues opts spheres).head? = some q →
        p ∈ regionFilter residues opts spheres →
        p.combinedScore.getD 0 ≤ q.combinedScore.getD 0 := by
  constructor
  · simp [regionFilter, List.length_take]
  · intro q p hq hp
    have hsorted : List.Pairwise scoreRel (regionFilter residues opts spheres) := by
      simp only [regionFilter]
      exact List.Pairwise.sublist (List.take_sublist _ _) (weightSpheres_sorted _ _)
    rcases hout : regionFilter residues opts spheres with _ | ⟨a, t⟩
    · rw [hout] at hq; cases hq
    · rw [hout] at hq hp hsorted
      have hqa : a = q := by simpa using hq
      subst hqa
      rcases List.mem_cons.mp hp with rfl | hmem
      · exact le_refl _
      · exact (List.pairwise_cons.mp hsorted).1 p hmem

/-- Output sphere of the concrete region-filter witness run. -/
noncomputable def c6Out : FilteredSphere := ⟨0, 0, 0, -1, some 0, some 1, some (3/4), some (9/10)⟩

/-- Witness for C6 at one anchor at the origin and one favorable sphere at
the origin; the filter keeps exactly that sphere, enriched and scored. -/
theorem c6_region_filter_ranking_witness :
    (regionFilter [((0 : ℝ), (0 : ℝ), (0 : ℝ))] ⟨5, 0, 5000, false⟩
        [⟨0, 0, 0, -1, none, none, none, none⟩]).head? = some c6Out
    ∧ c6Out ∈ regionFilter [((0 : ℝ), (0 : ℝ), (0 : ℝ))] ⟨5, 0, 5000, false⟩
        [⟨0, 0, 0, -1, none, none, none, none⟩]
    ∧ c6Out.combinedScore.getD 0 ≤ c6Out.combinedScore.getD 0 := by
  have hd : calculateDistance (0, 0, 0) (0, 0, 0) = 0 := by
    simp [calculateDistance]
  have hem : earlyMinDistance 5 ((⟨0, 0, 0, -1, none, none, none, none⟩ : FilteredSphere).pos)
      [((0 : ℝ), (0 : ℝ), (0 : ℝ))] none = some 0 := by
    simp only [earlyMinDistance, FilteredSphere.pos]
    rw [if_pos (by rw [hd]; norm_num)]
    rw [hd]
  have hfilter : filterSpheresByProximity [⟨0, 0, 0, -1, none, none, none, none⟩]
      [((0 : ℝ), (0 : ℝ), (0 : ℝ))] 5
      = [⟨0, 0, 0, -1, some 0, some 1, none, none⟩] := by
    rw [filterSpheresByProximity]
    rw [if_neg (by simp)]
    simp only [List.filterMap_cons, List.filterMap_nil, hem]
    rw [if_pos (by norm_num)]
    norm_num
  have hweight : weightSpheresByEnergy [(⟨0, 0, 0, -1, some 0, some 1, none, none⟩ : FilteredSphere)] 0
      = [c6Out] := by
    rw [weightSpheresByEnergy]
    simp only [List.filter_cons, List.filter_nil, decide_eq_true_eq]
    rw [if_pos (by norm_num)]
    simp only [List.map_cons, List.map_nil, List.insertionSort, List.orderedInsert]
    simp only [c6Out, calculateEnergyWeight, calculateCombinedScore, Option.getD_some,
      FilteredSphere.mk.injEq]
    norm_num [min_def, max_def]
  have hout : regionFilter [((0 : ℝ), (0 : ℝ), (0 : ℝ))] ⟨5, 0, 5000, false⟩
      [⟨0, 0, 0, -1, none, none, none, none⟩] = [c6Out] := by
    rw [regionFilter]
    have heff : regionFilterEffectiveDistance [((0 : ℝ), (0 : ℝ), (0 : ℝ))]
        ⟨5, 0, 5000, false⟩ = 5 := by
      rw [regionFilterEffectiveDistance]
      rw [if_neg (by simp)]
    rw [heff, hfilter, hweight]
    simp
  refine ⟨by rw [hout]; rfl, by rw [hout]; simp, ?_⟩
  exact (c6_region_filter_ranking _ _ _).2 c6Out c6Out (by rw [hout]; rfl) (by rw [hout]; simp)

/-- Square root of nine, used by the concrete distance evaluations. -/
theorem sqrt_nine_eq : Real.sqrt 9 = 3 := by
  rw [show (9 : ℝ) = 3 ^ 2 by norm_num]
  exact Real.sqrt_sq (by norm_num)

/-- Square root of one hundred, used by the concrete distance evaluations. -/
theorem sqrt_hundred_eq : Real.sqrt 100 = 10 := by
  rw [show (100 : ℝ) = 10 ^ 2 by norm_num]
  exact Real.sqrt_sq (by norm_num)

/-- Folding min of distances only decreases the start value. -/
theorem distFoldl_le_init (p : ℝ × ℝ × ℝ) (ds : List (ℝ × ℝ × ℝ)) :
    ∀ init : ℝ, ds.foldl (fun acc r => min acc (calculateDistance p r)) init ≤ init := by
  induction ds with
  | nil => intro init; exact le_refl _
  | cons a rest ih =>
    intro init
    exact le_trans (ih (min init (calculateDistance p a))) (min_le_left _ _)

/-- When the early-exit loop run from a finite running value returns a
distance, the full fold of min stays below that distance. -/
theorem earlyMin_ge_fold (maxD : ℝ) (p : ℝ × ℝ × ℝ) (ds : List (ℝ × ℝ × ℝ)) :
    ∀ c m : ℝ, earlyMinDistance maxD p ds (some c) = some m →
      ds.foldl (fun acc r => min acc (calculateDistance p r)) c ≤ m := by
  induction ds with
  | nil =>
    intro c m h
    simp only [earlyMinDistance] at h
    have hcm : c = m := by injection h
    rw [List.foldl_nil, hcm]
  | cons a rest ih =>
    intro c m h
    simp only [earlyMinDistance] at h
    by_cases hc : min c (calculateDistance p a) ≤ maxD
    · rw [if_pos hc] at h
      have hm : min c (calculateDistance p a) = m := by injection h
      rw [List.foldl_cons]
      exact le_trans (distFoldl_le_init p rest _) (le_of_eq hm)
    · rw [if_neg hc] at h
      exact ih _ m h

/-- The early-exit loop result, for a nonempty anchor list, is an upper
bound of the true minimum distance of the specification. -/
theorem earlyMin_specMin (maxD : ℝ) (p : ℝ × ℝ × ℝ) (residues : List (ℝ × ℝ × ℝ)) (m : ℝ)
    (hres : residues ≠ [])
    (h : earlyMinDistance maxD p residues none = some m) :
    ∃ t, specMinDistance p residues = some t ∧ t ≤ m := by
  cases residues with
  | nil => exact absurd rfl hres
  | cons a rest =>
    refine ⟨rest.foldl (fun mm r => min mm (calculateDistance p r)) (calculateDistance p a),
      rfl, ?_⟩
    simp only [earlyMinDistance] at h
    by_cases hc : calculateDistance p a ≤ maxD
    · rw [if_pos hc] at h
      have hm : calculateDistance p a = m := by injection h
      exact le_trans (distFoldl_le_init p rest _) (le_of_eq hm)
    · rw [if_neg hc] at h
      exact earlyMin_ge_fold maxD p rest _ m h

/-- C7 (amended): every sphere retained by the proximity filter carries a
recorded distance within maxDistance and proximityScore equal to
1 - recorded / maxDistance, and the true minimum distance to the anchor
set is at most the recorded distance (hence also within maxDistance, so a
point farther than maxDistance from every anchor is never retained,
whatever its value); the recorded distance is the value at the early exit
of the anchor loop, which can exceed the true minimum when a later anchor
is closer.  The concrete part is the specification example: one anchor at
the origin, maxDistance 5, and a point at distance 10 with a very
favorable value is excluded. -/
theorem c7_amended_proximity_filter :
    (∀ (spheres : List FilteredSphere) (residues : List (ℝ × ℝ × ℝ)) (maxD : ℝ),
        residues ≠ [] →
        ∀ q ∈ filterSpheresByProximity spheres residues maxD,
          ∃ m, q.minDistance = some m ∧ q.proximityScore = some (1 - m / maxD) ∧ m ≤ maxD
            ∧ ∃ t, specMinDistance q.pos residues = some t ∧ t ≤ m)
    ∧ filterSpheresByProximity [⟨10, 0, 0, -100, none, none, none, none⟩]
        [((0 : ℝ), (0 : ℝ), (0 : ℝ))] 5 = [] := by
  constructor
  · intro spheres residues maxD hres q hq
    rw [filterSpheresByProximity, if_neg hres] at hq
    simp only [List.mem_filterMap] at hq
    obtain ⟨s, hs, hfs⟩ := hq
    rcases hEM : earlyMinDistance maxD s.pos residues none with _ | m
    · simp only [hEM] at hfs
      exact Option.noConfusion hfs
    · simp only [hEM] at hfs
      by_cases hm : m ≤ maxD
      · rw [if_pos hm] at hfs
        have hq' : { s with minDistance := some m, proximityScore := some (1 - m / maxD) } = q := by
          injection hfs
        refine ⟨m, ?_, ?_, hm, ?_⟩
        · rw [← hq']
        · rw [← hq']
        · have hpos : q.pos = s.pos := by rw [← hq']; rfl
          rw [hpos]
          exact earlyMin_specMin maxD s.pos residues m hres hEM
      · rw [if_neg hm] at hfs
        simp at hfs
  · rw [filterSpheresByProximity, if_neg (by simp)]
    have hd : calculateDistance ((⟨10, 0, 0, -100, none, none, none, none⟩ :
        FilteredSphere).pos) ((0 : ℝ), (0 : ℝ), (0 : ℝ)) = 10 := by
      simp only [calculateDistance, FilteredSphere.pos]
      norm_num [sqrt_hundred_eq]
    have hem : earlyMinDistance 5 ((⟨10, 0, 0, -100, none, none, none, none⟩ :
        FilteredSphere).pos) [((0 : ℝ), (0 : ℝ), (0 : ℝ))] none = some 10 := by
      simp only [earlyMinDistance, hd]
      rw [if_neg (by norm_num)]
    simp only [List.filterMap_cons, List.filterMap_nil, hem]
    rw [if_neg (by norm_num : ¬ (10 : ℝ) ≤ 5)]

/-- C7 (counterexample): with the anchors listed farther first, the early
exit records distance 3 to the first anchor and never sees the anchor at
distance 1, so the retained sphere carries proximityScore 2/5 although the
claim formula 1 - minDistance / maxDistance over the true minimum distance
1 of the anchor set would give 4/5. -/
theorem c7_counterexample_early_exit_min :
    filterSpheresByProximity [⟨0, 0, 0, -1, none, none, none, none⟩]
        [((3 : ℝ), (0 : ℝ), (0 : ℝ)), ((1 : ℝ), (0 : ℝ), (0 : ℝ))] 5
      = [⟨0, 0, 0, -1, some 3, some (2/5), none, none⟩]
    ∧ specMinDistance ((0 : ℝ), (0 : ℝ), (0 : ℝ))
        [((3 : ℝ), (0 : ℝ), (0 : ℝ)), ((1 : ℝ), (0 : ℝ), (0 : ℝ))] = some 1
    ∧ ((2 : ℝ) / 5) ≠ 1 - 1 / 5 := by
  have hd3 : calculateDistance ((0 : ℝ), (0 : ℝ), (0 : ℝ)) ((3 : ℝ), (0 : ℝ), (0 : ℝ)) = 3 := by
    simp only [calculateDistance]
    norm_num [sqrt_nine_eq]
  have hd1 : calculateDistance ((0 : ℝ), (0 : ℝ), (0 : ℝ)) ((1 : ℝ), (0 : ℝ), (0 : ℝ)) = 1 := by
    simp only [calculateDistance]
    norm_num
  refine ⟨?_, ?_, by norm_num⟩
  · rw [filterSpheresByProximity, if_neg (by simp)]
    have hem : earlyMinDistance 5 ((⟨0, 0, 0, -1, none, none, none, none⟩ :
          FilteredSphere).pos)
        [((3 : ℝ), (0 : ℝ), (0 : ℝ)), ((1 : ℝ), (0 : ℝ), (0 : ℝ))] none = some 3 := by
      simp only [earlyMinDistance, FilteredSphere.pos, hd3]
      rw [if_pos (by norm_num)]
    simp only [List.filterMap_cons, List.filterMap_nil, hem]
    rw [if_pos (by norm_num : (3 : ℝ) ≤ 5)]
    norm_num [FilteredSphere.mk.injEq]
  · simp only [specMinDistance, List.foldl_cons, List.foldl_nil, hd3, hd1]
    norm_num [min_def]

/-- Witness for the amended C7 at one anchor at the origin and a sphere at
the origin, which the filter retains with recorded distance 0 and
proximityScore 1. -/
theorem c7_amended_proximity_filter_witness :
    ([((0 : ℝ), (0 : ℝ), (0 : ℝ))] ≠ ([] : List (ℝ × ℝ × ℝ)))
    ∧ (⟨0, 0, 0, -1, some 0, some 1, none, none⟩ : FilteredSphere)
        ∈ filterSpheresByProximity [⟨0, 0, 0, -1, none, none, none, none⟩]
            [((0 : ℝ), (0 : ℝ), (0 : ℝ))] 5
    ∧ ∃ m, (⟨0, 0, 0, -1, some 0, some 1, none, none⟩ : FilteredSphere).minDistance = some m
        ∧ (⟨0, 0, 0, -1, some 0, some 1, none, none⟩ : FilteredSphere).proximityScore
            = some (1 - m / 5)
        ∧ m ≤ 5
        ∧ ∃ t, specMinDistance ((⟨0, 0, 0, -1, some 0, some 1, none, none⟩ :
            FilteredSphere).pos) [((0 : ℝ), (0 : ℝ), (0 : ℝ))] = some t ∧ t ≤ m := by
  have hd : calculateDistance (0, 0, 0) (0, 0, 0) = 0 := by
    simp [calculateDistance]
  have hem : earlyMinDistance 5 ((⟨0, 0, 0, -1, none, none, none, none⟩ : FilteredSphere).pos)
      [((0 : ℝ), (0 : ℝ), (0 : ℝ))] none = some 0 := by
    simp only [earlyMinDistance, FilteredSphere.pos]
    rw [if_pos (by rw [hd]; norm_num)]
    rw [hd]
  have hfilter : filterSpheresByProximity [⟨0, 0, 0, -1, none, none, none, none⟩]
      [((0 : ℝ), (0 : ℝ), (0 : ℝ))] 5
      = [⟨0, 0, 0, -1, some 0, some 1, none, none⟩] := by
    rw [filterSpheresByProximity]
    rw [if_neg (by simp)]
    simp only [List.filterMap_cons, List.filterMap_nil, hem]
    rw [if_pos (by norm_num)]
    norm_num
  have hmem : (⟨0, 0, 0, -1, some 0, some 1, none, none⟩ : FilteredSphere)
      ∈ filterSpheresByProximity [⟨0, 0, 0, -1, none, none, none, none⟩]
          [((0 : ℝ), (0 : ℝ), (0 : ℝ))] 5 := by
    rw [hfilter]
    simp
  exact ⟨by simp, hmem,
    c7_amended_proximity_filter.1 [⟨0, 0, 0, -1, none, none, none, none⟩]
      [((0 : ℝ), (0 : ℝ), (0 : ℝ))] 5 (by simp) _ hmem⟩
